import Mathlib

/-!
Verification of the asset_revesting signal engine.

Shallow embedding conventions:
* Python floats are modelled as exact rationals (`ℚ`); the source only does
  field arithmetic and comparisons on them.
* Dates are integers (calendar-day numbers), so `d2 - d1` is the calendar-day
  difference that `datetime` subtraction produces in the source.
* The SQLite store is modelled by explicit inputs: every `get_latest_*` /
  `_get_close` / `_get_open` as-of lookup becomes an `Option`-valued parameter
  or a component of an environment of arbitrary functions, and a NULL column
  becomes `none`.
* Human-readable `details`/`flags` strings and the `print` statements of the
  source are presentation only and are not modelled.
-/

namespace AssetRevesting

/-! Configuration constants, from `asset_revesting/config.py`. -/

def STAGE_SLOPE_THRESHOLD : ℚ := 1/2

def STAGE_CONFIRMATION_DAYS : Nat := 3

def VIX_EMERGENCY_LEVEL : ℚ := 40

def VOLUME_PANIC_THRESHOLD : ℚ := 3

def VOLUME_FOMO_THRESHOLD : ℚ := 3

def TREND_MIN_CONDITIONS : Nat := 4

def USE_ATR_STOPS : Bool := true

def ATR_MULTIPLIER : ℚ := 3

def ATR_MAX_STOP_PCT : ℚ := 1/10

def ATR_MIN_STOP_PCT : ℚ := 1/25

def MAX_STOP_PCT : ℚ := 1/20

def MAX_STOP_PCT_INVERSE : ℚ := 1/25

def FIRST_TARGET_PCT : ℚ := 1/50

def FIRST_TARGET_PCT_STAGE3 : ℚ := 3/200

def FIRST_TARGET_PCT_INVERSE : ℚ := 3/200

def TRAILING_STOP_PCT : ℚ := 3/100

def TRAILING_STOP_PCT_INVERSE : ℚ := 1/50

def PARTIAL_EXIT_PCT_STAGE2 : ℚ := 1/4

def PARTIAL_EXIT_PCT_STAGE3 : ℚ := 1/2

def PARTIAL_EXIT_PCT_INVERSE : ℚ := 1/4

def SPEED_CHECK_DAYS : ℤ := 2

def SPEED_CHECK_EXTRA_PCT : ℚ := 1/4

def SPEED_CHECK_MAX_PCT : ℚ := 3/4

/-- `COOLDOWN_PERIOD` is a local constant inside `run_backtest`. -/
def COOLDOWN_PERIOD : Nat := 1

/-! Stage analysis, from `asset_revesting/core/stage_analysis.py`. -/

inductive Stage where
  | STAGE_1
  | STAGE_2
  | STAGE_3
  | STAGE_4
  | TRANSITIONAL
deriving DecidableEq

/-- One date's indicator values as consumed by `classify_stage`; a missing
(`NULL`/absent) value is `none`. -/
structure Ind where
  close : Option ℚ
  sma_50 : Option ℚ
  sma_150 : Option ℚ
  sma_200 : Option ℚ
  sma_150_slope : Option ℚ
  sma_200_slope : Option ℚ
  sma_50_slope : Option ℚ
deriving DecidableEq

/-- `classify_stage(ind)`: raw stage for a single date's indicator values,
without confirmation logic.  The leading `match` is the source's
`any(v is None for v in [close, sma_50, sma_150, sma_200, slope_150,
slope_200])` early return; note that `sma_50_slope` is not in that list and is
instead tested inline in the third distribution condition. -/
def classifyStage (ind : Ind) : Stage :=
  match ind.close, ind.sma_50, ind.sma_150, ind.sma_200,
        ind.sma_150_slope, ind.sma_200_slope with
  | some close, some sma50, some sma150, some sma200, some slope150, some slope200 =>
    let threshold := STAGE_SLOPE_THRESHOLD
    let s2 : List Bool :=
      [decide (close > sma150),
       decide (close > sma200),
       decide (slope150 > threshold),
       decide (sma50 > sma150 ∧ sma150 > sma200),
       decide (slope200 > -threshold)]
    if s2.count true ≥ 4 then Stage.STAGE_2
    else
      let s4 : List Bool :=
        [decide (close < sma150),
         decide (close < sma200),
         decide (slope150 < -threshold),
         decide (sma50 < sma150 ∧ sma150 < sma200),
         decide (slope200 < threshold)]
      if s4.count true ≥ 4 then Stage.STAGE_4
      else
        let s3 : List Bool :=
          [decide (|slope150| ≤ threshold * 2),
           (match ind.sma_50_slope with
            | some slope50 => decide (slope50 < threshold)
            | none => false),
           decide (sma50 < sma150),
           decide (slope200 > -threshold)]
        if s3.count true ≥ 3 then Stage.STAGE_3
        else
          let s1 : List Bool :=
            [decide (|slope150| ≤ threshold),
             decide (|slope200| ≤ threshold * (3/2)),
             decide (sma150 > 0 ∧ |close - sma150| / sma150 * 100 < 3)]
          if s1.count true ≥ 2 then Stage.STAGE_1
          else Stage.TRANSITIONAL
  | _, _, _, _, _, _ => Stage.TRANSITIONAL

/-! Signal generator, from `asset_revesting/core/signals.py`. -/

/-- Trade directions; `HOLD` is the cash recommendation of `asset_rotation`. -/
inductive Dir where
  | LONG
  | LONG_INVERSE
  | HOLD
deriving DecidableEq

inductive Trend where
  | RISING
  | FALLING
deriving DecidableEq

inductive Regime where
  | LOW
  | NORMAL
  | ELEVATED
  | HIGH
  | EXTREME
deriving DecidableEq

/-- A row of the `vix_indicators` table as returned by `get_latest_vix`;
`vix_regime`/`vix_trend` columns may be NULL. -/
structure VixRow where
  vixClose : ℚ
  vixRegime : Option Regime
  vixTrend : Option Trend
deriving DecidableEq

/-- A row of the `volume_indicators` table as returned by `get_latest_volume`. -/
structure VolRow where
  panic_r : Option ℚ
  fomo_r : Option ℚ
  fomo_r_ma : Option ℚ
deriving DecidableEq

/-- The SMA columns of an `indicators` row, as consumed by `trend_check`. -/
structure TrendInd where
  sma_5 : Option ℚ
  sma_20 : Option ℚ
  sma_50 : Option ℚ
  sma_150 : Option ℚ
  sma_200 : Option ℚ
deriving DecidableEq

structure CheckResult where
  favorable : Bool
  score : Nat
deriving DecidableEq

/-- `trend_check(symbol, direction, ...)`.  The store lookups are passed in:
`ind` is `get_latest_indicators(symbol, as_of_date)` and `close` is
`_get_close(symbol, ind["date"])`. -/
def trendCheck (ind : Option TrendInd) (close : Option ℚ) (direction : Dir) :
    CheckResult :=
  match ind with
  | none => { favorable := false, score := 0 }
  | some t =>
    match close with
    | none => { favorable := false, score := 0 }
    | some c =>
      match t.sma_5, t.sma_20, t.sma_50, t.sma_150, t.sma_200 with
      | some s5, some s20, some s50, some s150, some s200 =>
        let conds : List Bool :=
          if direction = Dir.LONG then
            [decide (c > s5), decide (s5 > s20), decide (c > s50),
             decide (c > s150), decide (c > s200)]
          else
            [decide (c < s5), decide (s5 < s20), decide (c < s50),
             decide (c < s150), decide (c < s200)]
        let score := conds.count true
        { favorable := decide (score ≥ TREND_MIN_CONDITIONS), score := score }
      | _, _, _, _, _ => { favorable := false, score := 0 }

structure VolatilityResult where
  favorable : Bool
  vixRegime : Option Regime
  vixTrend : Option Trend
deriving DecidableEq

/-- `volatility_check(direction, symbol, ...)`: `vix` is
`get_latest_vix(as_of_date)` and `bbPctB` the `bb_percent_b` column of
`get_latest_indicators(symbol, as_of_date)` when a symbol is given. -/
def volatilityCheck (vix : Option VixRow) (bbPctB : Option ℚ) (direction : Dir) :
    VolatilityResult :=
  match vix with
  | none => { favorable := false, vixRegime := none, vixTrend := none }
  | some v =>
    let regime := v.vixRegime
    let trend := v.vixTrend
    let favorable : Bool :=
      if direction = Dir.LONG then
        let vixOk : Bool :=
          decide (regime = some Regime.LOW ∨ regime = some Regime.NORMAL ∨
            (regime = some Regime.ELEVATED ∧ trend = some Trend.FALLING))
        let bbOk : Bool :=
          match bbPctB with
          | none => true
          | some b => decide (0 ≤ b ∧ b ≤ 1)
        vixOk && bbOk
      else
        decide ((regime = some Regime.HIGH ∨ regime = some Regime.EXTREME) ∧
          trend = some Trend.RISING)
    { favorable := favorable, vixRegime := regime, vixTrend := trend }

structure VolumeResult where
  favorable : Bool
  panic_r : Option ℚ
  fomo_r : Option ℚ
deriving DecidableEq

/-- `volume_check(direction, ...)`: `vol` is `get_latest_volume(as_of_date)`.
When no volume snapshot exists at all the pillar is favorable by default
(the source returns `favorable: True` with a neutral flag). -/
def volumeCheck (vol : Option VolRow) (direction : Dir) : VolumeResult :=
  match vol with
  | none => { favorable := true, panic_r := none, fomo_r := none }
  | some v =>
    let pr := v.panic_r
    let fr := v.fomo_r
    let frMa := v.fomo_r_ma
    let favorable : Bool :=
      if direction = Dir.LONG then
        let panicSignal : Bool :=
          match pr with
          | some p => decide (p ≥ VOLUME_PANIC_THRESHOLD)
          | none => false
        let noEuphoria : Bool :=
          match frMa with
          | some m => decide (m < 2)
          | none => false
        panicSignal || noEuphoria
      else
        match fr with
        | some f => decide (f ≥ VOLUME_FOMO_THRESHOLD)
        | none => false
    { favorable := favorable, panic_r := pr, fomo_r := fr }

/-! Trade parameters (`calc_trade_params`). -/

inductive TType where
  | STANDARD
  | STAGE3
  | INVERSE
deriving DecidableEq

structure TradeParams where
  initialStop : ℚ
  firstTarget : ℚ
  trailingPct : ℚ
  partialExitPct : ℚ
  tradeType : TType
deriving DecidableEq

/-- The inner `_atr_stop(fixed_pct, inverse)` helper of `calc_trade_params`.
The Python guard `USE_ATR_STOPS and atr and atr > 0` (truthiness of a float)
holds exactly when the flag is set and a strictly positive ATR is supplied. -/
def atrStop (entryPrice : ℚ) (atr : Option ℚ) (fixedPct : ℚ) (inverse : Bool) : ℚ :=
  match atr with
  | some a =>
    if USE_ATR_STOPS = true ∧ 0 < a then
      let rawDistance := ATR_MULTIPLIER * a
      let maxDistance :=
        entryPrice * (if inverse then MAX_STOP_PCT_INVERSE * (3/2) else ATR_MAX_STOP_PCT)
      let minDistance := entryPrice * ATR_MIN_STOP_PCT
      let distance := max minDistance (min rawDistance maxDistance)
      entryPrice - distance
    else entryPrice * (1 - fixedPct)
  | none => entryPrice * (1 - fixedPct)

/-- `calc_trade_params(entry_price, direction, stage, atr)`. -/
def calcTradeParams (entryPrice : ℚ) (direction : Dir) (stage : Stage)
    (atr : Option ℚ) : TradeParams :=
  if direction = Dir.LONG_INVERSE then
    { initialStop := atrStop entryPrice atr MAX_STOP_PCT_INVERSE true,
      firstTarget := entryPrice * (1 + FIRST_TARGET_PCT_INVERSE),
      trailingPct := TRAILING_STOP_PCT_INVERSE,
      partialExitPct := PARTIAL_EXIT_PCT_INVERSE,
      tradeType := TType.INVERSE }
  else if stage = Stage.STAGE_3 then
    { initialStop := atrStop entryPrice atr MAX_STOP_PCT false,
      firstTarget := entryPrice * (1 + FIRST_TARGET_PCT_STAGE3),
      trailingPct := TRAILING_STOP_PCT,
      partialExitPct := PARTIAL_EXIT_PCT_STAGE3,
      tradeType := TType.STAGE3 }
  else
    { initialStop := atrStop entryPrice atr MAX_STOP_PCT false,
      firstTarget := entryPrice * (1 + FIRST_TARGET_PCT),
      trailingPct := TRAILING_STOP_PCT,
      partialExitPct := PARTIAL_EXIT_PCT_STAGE2,
      tradeType := TType.STANDARD }

/-! Exit checks (`check_exits`) and the business-day helper. -/

/-- `_business_days_between(start_date, end_date)` applied to dates whose
calendar-day difference is `days`: Python's `int(days * 5 / 7)` truncates the
quotient toward zero, which `Int.tdiv` models exactly (for any realistic date
span the float division is exact enough that truncating it agrees with
truncating the rational). -/
def businessDaysBetween (days : ℤ) : ℤ :=
  max 1 (Int.tdiv (days * 5) 7)

inductive ExitReason where
  | VIX_EMERGENCY
  | STOP_HIT
  | STAGE_CHANGE
  | TARGET_HIT
  | TRAILING_STOP
  | BACKTEST_END
deriving DecidableEq

/-- The dict returned by `check_exits`: a full exit with its reason, a partial
exit (reason is always `TARGET_HIT`) with the fraction to sell, or a
trailing-stop update (reason `TRAILING_STOP`) with the new stop. -/
inductive ExitSignal where
  | fullExit (reason : ExitReason)
  | partialExit (exitPct : ℚ)
  | updateStop (newStop : ℚ)
deriving DecidableEq

/-- An open position as built by `run_backtest` (all fields are always set
there, so none is optional).  `signalDate` carries the pending entry's
`signal_date` into the position so that the no-lookahead property can be
stated; it is never read by the step logic. -/
structure Position where
  symbol : String
  underlying : String
  direction : Dir
  tier : Nat
  entryDate : ℤ
  entryPrice : ℚ
  shares : ℚ
  stop : ℚ
  firstTarget : ℚ
  trailingPct : ℚ
  partialExitPct : ℚ
  tradeType : TType
  partialExited : Bool
  signalDate : ℤ
deriving DecidableEq

/-- `check_exits(position, current_close, current_date, symbol, as_of_date)`.
The store lookups are passed in: `vix` is `get_latest_vix(as_of_date)`,
`stage` is `determine_stage(symbol, as_of_date)["stage"]`, and
`daysSinceEntry` is the calendar-day difference `current_date -
position["entry_date"]` fed to `_business_days_between`.  In backtest
positions `partial_exit_pct`, `trailing_pct` and `entry_date` are always
present, so the `.get(...)` defaults never apply. -/
def checkExits (vix : Option VixRow) (pos : Position) (currentClose : ℚ)
    (stage : Stage) (daysSinceEntry : ℤ) : Option ExitSignal :=
  if (match vix with
      | some v => decide (v.vixClose > VIX_EMERGENCY_LEVEL) &&
          decide (v.vixTrend = some Trend.RISING)
      | none => false) then
    some (ExitSignal.fullExit ExitReason.VIX_EMERGENCY)
  else if currentClose ≤ pos.stop then
    some (ExitSignal.fullExit ExitReason.STOP_HIT)
  else if pos.direction = Dir.LONG ∧ (stage = Stage.STAGE_3 ∨ stage = Stage.STAGE_4) then
    some (ExitSignal.fullExit ExitReason.STAGE_CHANGE)
  else if pos.direction = Dir.LONG_INVERSE ∧ (stage = Stage.STAGE_1 ∨ stage = Stage.STAGE_2) then
    some (ExitSignal.fullExit ExitReason.STAGE_CHANGE)
  else if pos.partialExited = false ∧ pos.firstTarget ≤ currentClose then
    let basePct := pos.partialExitPct
    let days := businessDaysBetween daysSinceEntry
    let exitPct :=
      if days ≤ SPEED_CHECK_DAYS then
        min (basePct + SPEED_CHECK_EXTRA_PCT) SPEED_CHECK_MAX_PCT
      else basePct
    some (ExitSignal.partialExit exitPct)
  else if pos.partialExited = true then
    let newTrail := currentClose * (1 - pos.trailingPct)
    if pos.stop < newTrail then some (ExitSignal.updateStop newTrail) else none
  else none

/-! Stage confirmation as computed by `compute_stage_history` (the per-symbol
loop over ascending dates) and, for comparison, by `determine_stage` called
date-by-date in ascending order on a fresh `stages` table. -/

/-- The loop state of `compute_stage_history`: `last_confirmed`, `consecutive`
and `last_raw` just before processing the next date. -/
structure CState where
  lastConfirmed : Stage
  consecutive : Nat
  lastRaw : Option Stage
deriving DecidableEq

/-- One stored/returned stage record: the raw stage, the `confirmed` flag, the
`consecutive_days` counter, and the confirmed stage in effect on that date. -/
structure ConfRec where
  raw : Stage
  confirmed : Bool
  consecutive : Nat
  confirmedStage : Stage
deriving DecidableEq

/-- The body of `compute_stage_history`'s date loop for one raw stage: the
consecutive-day count update followed by the confirmation rule.  Returns the
new loop state and the record stored for the date. -/
def confirmStep (s : CState) (raw : Stage) : CState × ConfRec :=
  let consec : Nat :=
    if s.lastRaw = some raw ∧ raw ≠ Stage.TRANSITIONAL then s.consecutive + 1
    else if raw = Stage.TRANSITIONAL then 0
    else 1
  if raw = Stage.TRANSITIONAL then
    (⟨s.lastConfirmed, consec, some raw⟩, ⟨raw, false, consec, s.lastConfirmed⟩)
  else if raw = s.lastConfirmed then
    (⟨s.lastConfirmed, consec, some raw⟩, ⟨raw, true, consec, s.lastConfirmed⟩)
  else if STAGE_CONFIRMATION_DAYS ≤ consec then
    (⟨raw, consec, some raw⟩, ⟨raw, true, consec, raw⟩)
  else
    (⟨s.lastConfirmed, consec, some raw⟩, ⟨raw, false, consec, s.lastConfirmed⟩)

/-- Initial loop state of `compute_stage_history`:
`last_confirmed = TRANSITIONAL`, `consecutive = 0`, `last_raw = None`. -/
def initC : CState := ⟨Stage.TRANSITIONAL, 0, none⟩

/-- `compute_stage_history`'s date loop folded over a list of raw stages. -/
def confirmList (s : CState) : List Stage → List ConfRec
  | [] => []
  | r :: rs =>
    let p := confirmStep s r
    p.2 :: confirmList p.1 rs

/-- The per-symbol body of `compute_stage_history`: classify each date's
indicators, then run the confirmation fold. -/
def stageHistory (inds : List Ind) : List ConfRec :=
  confirmList initC (inds.map classifyStage)

/-- The `stages`-table state seen by `determine_stage` on its uncached path:
`recent` is the raw stage and `consecutive_days` of the last stored row, and
`lastConf` is the raw stage of the last row stored with `confirmed = 1`. -/
structure DState where
  recent : Option (Stage × Nat)
  lastConf : Option Stage
deriving DecidableEq

/-- One uncached `determine_stage` call for a date whose raw stage is `raw`,
on a table in state `s`; returns the table state after the `INSERT` and the
returned record.  Note the consecutive-day branch `recent["stage"] ==
raw_stage` has no TRANSITIONAL guard, unlike `compute_stage_history`. -/
def determineStep (s : DState) (raw : Stage) : DState × ConfRec :=
  let lastConfirmed := s.lastConf.getD Stage.TRANSITIONAL
  let consec : Nat :=
    match s.recent with
    | some pr =>
      if pr.1 = raw then pr.2 + 1
      else if raw = Stage.TRANSITIONAL then 0
      else 1
    | none => if raw = Stage.TRANSITIONAL then 0 else 1
  let res : Bool × Stage :=
    if raw = Stage.TRANSITIONAL then (false, lastConfirmed)
    else if raw = lastConfirmed then (true, lastConfirmed)
    else if STAGE_CONFIRMATION_DAYS ≤ consec then (true, raw)
    else (false, lastConfirmed)
  (⟨some (raw, consec), if res.1 then some raw else s.lastConf⟩,
   ⟨raw, res.1, consec, res.2⟩)

/-- A fresh `stages` table: no stored rows at all. -/
def initD : DState := ⟨none, none⟩

/-- `determine_stage` called date-by-date in ascending order over a list of
raw stages, starting from table state `s`. -/
def determineList (s : DState) : List Stage → List ConfRec
  | [] => []
  | r :: rs =>
    let p := determineStep s r
    p.2 :: determineList p.1 rs

/-! Backtest simulator, from `asset_revesting/core/backtester.py`. -/

/-- The `asset_rotation` result fields consumed by `run_backtest`. -/
inductive Strength where
  | STRONG_ENTRY
  | MODERATE_ENTRY
  | NO_ENTRY
deriving DecidableEq

structure Rotation where
  asset : String
  direction : Dir
  tier : Nat
  strength : Strength
deriving DecidableEq

/-- A pending entry: the signal recorded at a close, to be executed at the
next trading day's open. -/
structure Pending where
  asset : String
  underlying : String
  direction : Dir
  tier : Nat
  strength : Strength
  stage : Stage
  signalDate : ℤ
deriving DecidableEq

/-- A closed trade as appended to `result.trades`.  `pnlPct` is kept exact
(the source rounds it to 2 decimals for reporting); the constant
`status: "CLOSED"` field is omitted.  `signalDate` is the ghost signal date
carried from the position. -/
structure Trade where
  tradeNum : Nat
  symbol : String
  direction : Dir
  tier : Nat
  entryDate : ℤ
  entryPrice : ℚ
  exitDate : ℤ
  exitPrice : ℚ
  exitReason : ExitReason
  pnlPct : ℚ
  holdingDays : ℤ
  signalDate : ℤ
deriving DecidableEq

inductive DayState where
  | CASH
  | ENTERING
  | POSITIONED
deriving DecidableEq

structure DailyRow where
  date : ℤ
  state : DayState
  equity : ℚ
  positionSym : Option String
deriving DecidableEq

/-- Everything `run_backtest` reads from the store while replaying a date:
price opens/closes, the VIX row, the `asset_rotation` recommendation, the
confirmed stage from `determine_stage`, and the stored ATR (`_get_atr`).
Each is an arbitrary function of symbol/date, standing for the respective
SQL as-of query. -/
structure Env where
  openPx : String → ℤ → Option ℚ
  closePx : String → ℤ → Option ℚ
  vixAt : ℤ → Option VixRow
  rotationOf : ℤ → Rotation
  stageOf : String → ℤ → Stage
  atrOf : String → ℤ → Option ℚ

/-- The mutable state of `run_backtest`'s date loop, together with the
accumulating result lists. -/
structure BTState where
  cash : ℚ
  position : Option Position
  pending : Option Pending
  vixCooldown : Bool
  cooldownDays : Nat
  tradeCount : Nat
  trades : List Trade
  equityCurve : List (ℤ × ℚ)
  dailyLog : List DailyRow

/-- The entry fill price for a pending entry executed on date `d`:
`_get_open`, falling back to `_get_close` when the open is `None` or
nonpositive (Python: `if not entry_price or entry_price <= 0`), and yielding
a fill only when the final price is strictly positive (Python:
`if entry_price and entry_price > 0`). -/
def fillPrice (env : Env) (sym : String) (d : ℤ) : Option ℚ :=
  let op := env.openPx sym d
  let ep : Option ℚ :=
    match op with
    | some o => if o ≤ 0 then env.closePx sym d else some o
    | none => env.closePx sym d
  match ep with
  | some p => if 0 < p then some p else none
  | none => none

/-- The top of the date loop: lift the VIX cooldown once VIX is back under the
emergency level, and count down the general re-entry cooldown (Python
`if cooldown_days > 0: cooldown_days -= 1`, which is `Nat` subtraction). -/
def preStep (env : Env) (st : BTState) (d : ℤ) : BTState :=
  let currentVix : ℚ :=
    match env.vixAt d with
    | some v => v.vixClose
    | none => 0
  let vixCd :=
    if st.vixCooldown ∧ currentVix < VIX_EMERGENCY_LEVEL then false else st.vixCooldown
  { st with vixCooldown := vixCd, cooldownDays := st.cooldownDays - 1 }

/-- STEP 1 of the date loop: execute a pending entry at today's open (or
close), cancelling it instead while a VIX cooldown is active.  The pending
slot is cleared on every path. -/
def fillStep (env : Env) (st : BTState) (d : ℤ) : BTState :=
  match st.pending with
  | none => st
  | some p =>
    if st.vixCooldown then { st with pending := none }
    else
      match fillPrice env p.asset d with
      | some ep =>
        let params := calcTradeParams ep p.direction p.stage (env.atrOf p.underlying d)
        { st with
          pending := none
          cash := 0
          tradeCount := st.tradeCount + 1
          position := some
            { symbol := p.asset
              underlying := p.underlying
              direction := p.direction
              tier := p.tier
              entryDate := d
              entryPrice := ep
              shares := st.cash / ep
              stop := params.initialStop
              firstTarget := params.firstTarget
              trailingPct := params.trailingPct
              partialExitPct := params.partialExitPct
              tradeType := params.tradeType
              partialExited := false
              signalDate := p.signalDate } }
      | none => { st with pending := none }

/-- STEP 2 of the date loop: if positioned (and not on the entry day),
evaluate `check_exits` against today's close and apply the resulting full
exit, partial exit (stop to breakeven) or trailing-stop update. -/
def exitStep (env : Env) (st : BTState) (d : ℤ) : BTState :=
  match st.position with
  | none => st
  | some pos =>
    if pos.entryDate = d then st
    else
      match env.closePx pos.symbol d with
      | none => st
      | some c =>
        match checkExits (env.vixAt d) pos c (env.stageOf pos.underlying d)
            (d - pos.entryDate) with
        | none => st
        | some (ExitSignal.fullExit reason) =>
          { st with
            cash := st.cash + pos.shares * c
            position := none
            cooldownDays := COOLDOWN_PERIOD
            vixCooldown :=
              if reason = ExitReason.VIX_EMERGENCY then true else st.vixCooldown
            trades := st.trades ++
              [{ tradeNum := st.tradeCount
                 symbol := pos.symbol
                 direction := pos.direction
                 tier := pos.tier
                 entryDate := pos.entryDate
                 entryPrice := pos.entryPrice
                 exitDate := d
                 exitPrice := c
                 exitReason := reason
                 pnlPct := (c - pos.entryPrice) / pos.entryPrice * 100
                 holdingDays := d - pos.entryDate
                 signalDate := pos.signalDate }] }
        | some (ExitSignal.partialExit pct) =>
          let sharesToSell := pos.shares * pct
          { st with
            cash := st.cash + sharesToSell * c
            position := some
              { pos with
                shares := pos.shares - sharesToSell
                partialExited := true
                stop := pos.entryPrice } }
        | some (ExitSignal.updateStop ns) =>
          { st with position := some { pos with stop := ns } }

/-- STEP 3 of the date loop: in cash with no pending entry, no VIX cooldown
and no re-entry cooldown, run `asset_rotation`; a qualifying recommendation
becomes a pending entry for tomorrow's open. -/
def signalStep (env : Env) (st : BTState) (d : ℤ) : BTState :=
  if st.position = none ∧ st.pending = none ∧ st.vixCooldown = false ∧
      st.cooldownDays = 0 then
    let rot := env.rotationOf d
    if rot.direction ≠ Dir.HOLD ∧ rot.strength ≠ Strength.NO_ENTRY then
      let underlying := if rot.direction = Dir.LONG then rot.asset else "SPY"
      let pd : Pending :=
        { asset := rot.asset
          underlying := underlying
          direction := rot.direction
          tier := rot.tier
          strength := rot.strength
          stage := env.stageOf underlying d
          signalDate := d }
      { st with pending := some pd }
    else st
  else st

/-- STEP 4 of the date loop: record today's equity (cash plus position
mark-to-close; Python's `if pos_close` treats both a missing and a zero close
as unavailable and then records bare cash) and the daily log row. -/
def logStep (env : Env) (st : BTState) (d : ℤ) : BTState :=
  let equity : ℚ :=
    match st.position with
    | some pos =>
      if 0 < pos.shares then
        match env.closePx pos.symbol d with
        | some c => if c = 0 then st.cash else st.cash + pos.shares * c
        | none => st.cash
      else st.cash
    | none => st.cash
  let dayState : DayState :=
    if st.position = none ∧ st.pending = none then DayState.CASH
    else if st.pending.isSome then DayState.ENTERING
    else DayState.POSITIONED
  { st with
    equityCurve := st.equityCurve ++ [(d, equity)]
    dailyLog := st.dailyLog ++
      [{ date := d, state := dayState, equity := equity,
         positionSym := st.position.map (fun p => p.symbol) }] }

/-- One full iteration of `run_backtest`'s date loop. -/
def stepDay (env : Env) (st : BTState) (d : ℤ) : BTState :=
  logStep env (signalStep env (exitStep env (fillStep env (preStep env st d) d) d) d) d

/-- The initial portfolio state of `run_backtest`. -/
def initState (cap : ℚ) : BTState :=
  { cash := cap, position := none, pending := none, vixCooldown := false,
    cooldownDays := 0, tradeCount := 0, trades := [], equityCurve := [],
    dailyLog := [] }

/-- All intermediate states of the date loop (state after each date). -/
def btScan (env : Env) (st : BTState) : List ℤ → List BTState
  | [] => []
  | d :: ds =>
    let st1 := stepDay env st d
    st1 :: btScan env st1 ds

/-- `run_backtest(start, end, capital)` over a given list of trading dates:
the date loop followed by the close-out of any remaining position at the
final date's close (reason `BACKTEST_END`; skipped when that close is
missing or zero, Python `if final_close`). -/
def runBacktest (env : Env) (cap : ℚ) (dates : List ℤ) : BTState :=
  let stEnd := dates.foldl (stepDay env) (initState cap)
  match dates.getLast?, stEnd.position with
  | some dLast, some pos =>
    if 0 < pos.shares then
      match env.closePx pos.symbol dLast with
      | some fc =>
        if fc = 0 then stEnd
        else
          { stEnd with
            cash := stEnd.cash + pos.shares * fc
            trades := stEnd.trades ++
              [{ tradeNum := stEnd.tradeCount
                 symbol := pos.symbol
                 direction := pos.direction
                 tier := pos.tier
                 entryDate := pos.entryDate
                 entryPrice := pos.entryPrice
                 exitDate := dLast
                 exitPrice := fc
                 exitReason := ExitReason.BACKTEST_END
                 pnlPct := (fc - pos.entryPrice) / pos.entryPrice * 100
                 holdingDays := dLast - pos.entryDate
                 signalDate := pos.signalDate }] }
      | none => stEnd
    else stEnd
  | _, _ => stEnd

/-! Shared predicates and helper lemmas. -/

/-- The VIX-emergency condition of `check_exits` and `asset_rotation`:
a VIX row exists, its close is above the emergency level, and its trend is
RISING. -/
def vixEmergency (vix : Option VixRow) : Prop :=
  ∃ v, vix = some v ∧ VIX_EMERGENCY_LEVEL < v.vixClose ∧ v.vixTrend = some Trend.RISING

/-- The confirmed stage has flipped against the position's direction
(`check_exits` priority 3). -/
def stageAgainst (pos : Position) (stage : Stage) : Prop :=
  (pos.direction = Dir.LONG ∧ (stage = Stage.STAGE_3 ∨ stage = Stage.STAGE_4)) ∨
  (pos.direction = Dir.LONG_INVERSE ∧ (stage = Stage.STAGE_1 ∨ stage = Stage.STAGE_2))

lemma vixGuard_eq_true_iff (vix : Option VixRow) :
    ((match vix with
      | some v => decide (v.vixClose > VIX_EMERGENCY_LEVEL) &&
          decide (v.vixTrend = some Trend.RISING)
      | none => false) = true) ↔ vixEmergency vix := by
  cases vix with
  | none => simp [vixEmergency]
  | some v => simp [vixEmergency]

/-! Claim C4: `classify_stage` thresholds and missing-input behaviour. -/

/-- A snapshot whose only missing input is the 50-SMA slope, with all five
advancing conditions true. -/
def indNoSlope50 : Ind :=
  { close := some 110, sma_50 := some 105, sma_150 := some 100, sma_200 := some 95,
    sma_150_slope := some 1, sma_200_slope := some 0, sma_50_slope := none }

/-- C4 counterexample: the claim says any snapshot with a missing slope input,
including the 50-SMA slope, yields TRANSITIONAL; but `classify_stage`'s
missing-input check does not cover `sma_50_slope`, and this snapshot with
`sma_50_slope = None` classifies as STAGE_2. -/
theorem classify_missing_slope50_counterexample :
    indNoSlope50.sma_50_slope = none ∧ classifyStage indNoSlope50 = Stage.STAGE_2 := by
  exact ⟨rfl, by with_unfolding_all rfl⟩

/-- C4 (amended): `classify_stage` returns STAGE_2 iff at least 4 of the 5
advancing conditions hold, otherwise STAGE_4 iff at least 4 of the 5 declining
conditions hold, otherwise STAGE_3 iff at least 3 of the 4 distribution
conditions hold, otherwise STAGE_1 iff at least 2 of the 3 accumulation
conditions hold, and otherwise TRANSITIONAL; a snapshot missing the close, any
of the 50/150/200-SMAs, or the 150/200-SMA slopes yields TRANSITIONAL, while a
missing 50-SMA slope only falsifies the distribution condition that uses it. -/
theorem classify_stage_amended (ind : Ind) :
    ((ind.close = none ∨ ind.sma_50 = none ∨ ind.sma_150 = none ∨ ind.sma_200 = none ∨
      ind.sma_150_slope = none ∨ ind.sma_200_slope = none) →
      classifyStage ind = Stage.TRANSITIONAL) ∧
    (∀ c s50 s150 s200 sl150 sl200,
      ind.close = some c → ind.sma_50 = some s50 → ind.sma_150 = some s150 →
      ind.sma_200 = some s200 → ind.sma_150_slope = some sl150 →
      ind.sma_200_slope = some sl200 →
      classifyStage ind =
        (let th := STAGE_SLOPE_THRESHOLD
         let n2 := ([decide (c > s150), decide (c > s200), decide (sl150 > th),
           decide (s50 > s150 ∧ s150 > s200), decide (sl200 > -th)].count true)
         let n4 := ([decide (c < s150), decide (c < s200), decide (sl150 < -th),
           decide (s50 < s150 ∧ s150 < s200), decide (sl200 < th)].count true)
         let n3 := ([decide (|sl150| ≤ th * 2),
           (match ind.sma_50_slope with
            | some sl50 => decide (sl50 < th)
            | none => false),
           decide (s50 < s150), decide (sl200 > -th)].count true)
         let n1 := ([decide (|sl150| ≤ th), decide (|sl200| ≤ th * (3/2)),
           decide (s150 > 0 ∧ |c - s150| / s150 * 100 < 3)].count true)
         if n2 ≥ 4 then Stage.STAGE_2
         else if n4 ≥ 4 then Stage.STAGE_4
         else if n3 ≥ 3 then Stage.STAGE_3
         else if n1 ≥ 2 then Stage.STAGE_1
         else Stage.TRANSITIONAL)) := by
  obtain ⟨oc, o50, o150, o200, osl150, osl200, osl50⟩ := ind
  constructor
  · intro h
    cases oc <;> cases o50 <;> cases o150 <;> cases o200 <;>
      cases osl150 <;> cases osl200 <;> first | rfl | simp at h
  · intro c s50 s150 s200 sl150 sl200 hc h50 h150 h200 hs150 hs200
    simp only at hc h50 h150 h200 hs150 hs200
    subst hc h50 h150 h200 hs150 hs200
    rfl

/-- A snapshot with a missing close, for the C4 witness. -/
def indNoClose : Ind :=
  { close := none, sma_50 := some 1, sma_150 := some 1, sma_200 := some 1,
    sma_150_slope := some 1, sma_200_slope := some 1, sma_50_slope := some 1 }

/-- Witness for C4's amended theorem: a snapshot with a missing close
classifies as TRANSITIONAL. -/
theorem classify_stage_amended_witness :
    (indNoClose.close = none ∨ indNoClose.sma_50 = none ∨
      indNoClose.sma_150 = none ∨ indNoClose.sma_200 = none ∨
      indNoClose.sma_150_slope = none ∨ indNoClose.sma_200_slope = none) ∧
    classifyStage indNoClose = Stage.TRANSITIONAL :=
  ⟨Or.inl rfl, (classify_stage_amended indNoClose).1 (Or.inl rfl)⟩

/-! Claim C6: ATR stop clamp in `calc_trade_params`. -/

/-- C6: for a LONG entry whose stage is not STAGE_3, with ATR stops enabled
and a positive ATR, the initial stop is the entry price minus
clamp(3 x ATR, 4 percent of entry, 10 percent of entry); concretely entry 100
with ATR 2 gives stop 94 and with ATR 20 gives stop 90; with no ATR the stop
falls back to entry x (1 - 0.05). -/
theorem atr_stop_clamp :
    (∀ (entryPrice a : ℚ) (stage : Stage), stage ≠ Stage.STAGE_3 → 0 < a →
      (calcTradeParams entryPrice Dir.LONG stage (some a)).initialStop =
        entryPrice - max (entryPrice * ATR_MIN_STOP_PCT)
          (min (ATR_MULTIPLIER * a) (entryPrice * ATR_MAX_STOP_PCT))) ∧
    (calcTradeParams 100 Dir.LONG Stage.STAGE_2 (some 2)).initialStop = 94 ∧
    (calcTradeParams 100 Dir.LONG Stage.STAGE_2 (some 20)).initialStop = 90 ∧
    (∀ (entryPrice : ℚ) (stage : Stage), stage ≠ Stage.STAGE_3 →
      (calcTradeParams entryPrice Dir.LONG stage none).initialStop =
        entryPrice * (1 - MAX_STOP_PCT)) := by
  refine ⟨?_, ?_, ?_, ?_⟩
  · intro entryPrice a stage hst ha
    simp [calcTradeParams, atrStop, USE_ATR_STOPS, hst, ha]
  · with_unfolding_all rfl
  · with_unfolding_all rfl
  · intro entryPrice stage hst
    simp [calcTradeParams, atrStop, hst]

/-- Witness for C6 at entry 100, ATR 2, stage STAGE_2. -/
theorem atr_stop_clamp_witness :
    Stage.STAGE_2 ≠ Stage.STAGE_3 ∧ (0 : ℚ) < 2 ∧
    (calcTradeParams 100 Dir.LONG Stage.STAGE_2 (some 2)).initialStop =
      100 - max (100 * ATR_MIN_STOP_PCT)
        (min (ATR_MULTIPLIER * 2) (100 * ATR_MAX_STOP_PCT)) :=
  ⟨by decide, by norm_num, atr_stop_clamp.1 100 2 Stage.STAGE_2 (by decide) (by norm_num)⟩

/-! Claim C9: defaults of the three data-driven pillars on missing data. -/

/-- C9: with no volume snapshot at all, `volume_check` reports the volume
pillar favorable for a LONG entry (neutral-favorable default), while
`trend_check` and `volatility_check` report their pillars unfavorable whenever
their indicator, close, SMA or VIX inputs are missing (conservative default). -/
theorem missing_data_pillar_defaults :
    (volumeCheck none Dir.LONG).favorable = true ∧
    (∀ (close : Option ℚ) (d : Dir), (trendCheck none close d).favorable = false) ∧
    (∀ (t : TrendInd) (d : Dir), (trendCheck (some t) none d).favorable = false) ∧
    (∀ (t : TrendInd) (c : ℚ) (d : Dir),
      (t.sma_5 = none ∨ t.sma_20 = none ∨ t.sma_50 = none ∨ t.sma_150 = none ∨
       t.sma_200 = none) →
      (trendCheck (some t) (some c) d).favorable = false) ∧
    (∀ (bb : Option ℚ) (d : Dir), (volatilityCheck none bb d).favorable = false) := by
  refine ⟨rfl, fun close d => rfl, fun t d => rfl, ?_, fun bb d => rfl⟩
  intro t c d h
  obtain ⟨o5, o20, o50, o150, o200⟩ := t
  cases o5 <;> cases o20 <;> cases o50 <;> cases o150 <;> cases o200 <;>
    first | rfl | simp at h

/-- Witness for C9's missing-SMA clause at a snapshot missing only `sma_5`. -/
theorem missing_data_pillar_defaults_witness :
    ((⟨none, some 1, some 1, some 1, some 1⟩ : TrendInd).sma_5 = none ∨
     (⟨none, some 1, some 1, some 1, some 1⟩ : TrendInd).sma_20 = none ∨
     (⟨none, some 1, some 1, some 1, some 1⟩ : TrendInd).sma_50 = none ∨
     (⟨none, some 1, some 1, some 1, some 1⟩ : TrendInd).sma_150 = none ∨
     (⟨none, some 1, some 1, some 1, some 1⟩ : TrendInd).sma_200 = none) ∧
    (trendCheck (some ⟨none, some 1, some 1, some 1, some 1⟩) (some 2)
      Dir.LONG).favorable = false :=
  ⟨Or.inl rfl,
   missing_data_pillar_defaults.2.2.2.1 ⟨none, some 1, some 1, some 1, some 1⟩ 2
     Dir.LONG (Or.inl rfl)⟩

/-! Claim C5: `check_exits` evaluates its rules in strict priority order. -/

lemma checkExits_rule4 (vix : Option VixRow) (pos : Position) (c : ℚ)
    (stage : Stage) (dd : ℤ) (hnv : ¬vixEmergency vix) (hlt : pos.stop < c)
    (hns : ¬stageAgainst pos stage) (hpf : pos.partialExited = false)
    (hft : pos.firstTarget ≤ c) :
    checkExits vix pos c stage dd =
      some (ExitSignal.partialExit
        (if businessDaysBetween dd ≤ SPEED_CHECK_DAYS then
          min (pos.partialExitPct + SPEED_CHECK_EXTRA_PCT) SPEED_CHECK_MAX_PCT
        else pos.partialExitPct)) := by
  have hg := vixGuard_eq_true_iff vix
  rw [checkExits.eq_def, if_neg (fun hh => hnv (hg.mp hh)), if_neg (not_le.mpr hlt),
    if_neg (fun hh => hns (Or.inl hh)), if_neg (fun hh => hns (Or.inr hh)),
    if_pos ⟨hpf, hft⟩]

/-- C5: `check_exits` returns the first matching rule in the fixed order
VIX emergency, stop hit, stage change, first target (partial, only when not
yet partially exited), trailing-stop update (only after a partial exit), and
returns no action when no rule matches; a match at an earlier priority makes
every later rule irrelevant. -/
theorem check_exits_priority (vix : Option VixRow) (pos : Position) (c : ℚ)
    (stage : Stage) (dd : ℤ) :
    (vixEmergency vix →
      checkExits vix pos c stage dd =
        some (ExitSignal.fullExit ExitReason.VIX_EMERGENCY)) ∧
    (¬vixEmergency vix → c ≤ pos.stop →
      checkExits vix pos c stage dd = some (ExitSignal.fullExit ExitReason.STOP_HIT)) ∧
    (¬vixEmergency vix → pos.stop < c → stageAgainst pos stage →
      checkExits vix pos c stage dd =
        some (ExitSignal.fullExit ExitReason.STAGE_CHANGE)) ∧
    (¬vixEmergency vix → pos.stop < c → ¬stageAgainst pos stage →
      pos.partialExited = false → pos.firstTarget ≤ c →
      checkExits vix pos c stage dd =
        some (ExitSignal.partialExit
          (if businessDaysBetween dd ≤ SPEED_CHECK_DAYS then
            min (pos.partialExitPct + SPEED_CHECK_EXTRA_PCT) SPEED_CHECK_MAX_PCT
          else pos.partialExitPct))) ∧
    (¬vixEmergency vix → pos.stop < c → ¬stageAgainst pos stage →
      pos.partialExited = true →
      (pos.stop < c * (1 - pos.trailingPct) →
        checkExits vix pos c stage dd =
          some (ExitSignal.updateStop (c * (1 - pos.trailingPct)))) ∧
      (c * (1 - pos.trailingPct) ≤ pos.stop →
        checkExits vix pos c stage dd = none)) ∧
    (¬vixEmergency vix → pos.stop < c → ¬stageAgainst pos stage →
      pos.partialExited = false → c < pos.firstTarget →
      checkExits vix pos c stage dd = none) := by
  have hg := vixGuard_eq_true_iff vix
  refine ⟨?_, ?_, ?_, ?_, ?_, ?_⟩
  · intro hv
    rw [checkExits.eq_def, if_pos (hg.mpr hv)]
  · intro hnv hle
    rw [checkExits.eq_def, if_neg (fun hh => hnv (hg.mp hh)), if_pos hle]
  · intro hnv hlt hsa
    rcases hsa with ⟨hd, hs⟩ | ⟨hd, hs⟩
    · rw [checkExits.eq_def, if_neg (fun hh => hnv (hg.mp hh)),
        if_neg (not_le.mpr hlt), if_pos ⟨hd, hs⟩]
    · have hnl : ¬(pos.direction = Dir.LONG ∧ (stage = Stage.STAGE_3 ∨ stage = Stage.STAGE_4)) := by
        rintro ⟨hL, _⟩
        rw [hd] at hL
        exact Dir.noConfusion hL
      rw [checkExits.eq_def, if_neg (fun hh => hnv (hg.mp hh)),
        if_neg (not_le.mpr hlt), if_neg hnl, if_pos ⟨hd, hs⟩]
  · intro hnv hlt hns hpf hft
    exact checkExits_rule4 vix pos c stage dd hnv hlt hns hpf hft
  · intro hnv hlt hns hpt
    have hn4 : ¬(pos.partialExited = false ∧ pos.firstTarget ≤ c) := by
      rintro ⟨hf, _⟩
      rw [hpt] at hf
      exact Bool.noConfusion hf
    constructor
    · intro htr
      rw [checkExits.eq_def, if_neg (fun hh => hnv (hg.mp hh)), if_neg (not_le.mpr hlt),
        if_neg (fun hh => hns (Or.inl hh)), if_neg (fun hh => hns (Or.inr hh)),
        if_neg hn4, if_pos hpt, if_pos htr]
    · intro hle
      rw [checkExits.eq_def, if_neg (fun hh => hnv (hg.mp hh)), if_neg (not_le.mpr hlt),
        if_neg (fun hh => hns (Or.inl hh)), if_neg (fun hh => hns (Or.inr hh)),
        if_neg hn4, if_pos hpt, if_neg (not_lt.mpr hle)]
  · intro hnv hlt hns hpf hct
    have hn4 : ¬(pos.partialExited = false ∧ pos.firstTarget ≤ c) := by
      rintro ⟨_, ht⟩
      exact absurd ht (not_le.mpr hct)
    have hn5 : ¬pos.partialExited = true := by
      rw [hpf]
      exact Bool.noConfusion
    rw [checkExits.eq_def, if_neg (fun hh => hnv (hg.mp hh)), if_neg (not_le.mpr hlt),
      if_neg (fun hh => hns (Or.inl hh)), if_neg (fun hh => hns (Or.inr hh)),
      if_neg hn4, if_neg hn5]

/-- A concrete open position for exercising the exit rules. -/
def posStop : Position :=
  { symbol := "SPY", underlying := "SPY", direction := Dir.LONG, tier := 1,
    entryDate := 0, entryPrice := 100, shares := 1, stop := 95, firstTarget := 102,
    trailingPct := 3/100, partialExitPct := 1/4, tradeType := TType.STANDARD,
    partialExited := false, signalDate := -1 }

/-- Witness for C5: with no VIX emergency and the close at or below the stop,
`check_exits` returns a full exit with reason STOP_HIT. -/
theorem check_exits_priority_witness :
    ¬vixEmergency none ∧ (90 : ℚ) ≤ posStop.stop ∧
    checkExits none posStop 90 Stage.STAGE_2 5 =
      some (ExitSignal.fullExit ExitReason.STOP_HIT) := by
  have hnv : ¬vixEmergency none := by
    rintro ⟨v, hv, _⟩
    exact Option.noConfusion hv
  have hle : (90 : ℚ) ≤ posStop.stop := by norm_num [posStop]
  exact ⟨hnv, hle, (check_exits_priority none posStop 90 Stage.STAGE_2 5).2.1 hnv hle⟩

/-! Claim C10: `_business_days_between` and the speed-check window. -/

lemma tdiv_nonpos_of_neg (n : ℤ) (h : n < 0) : Int.tdiv n 7 ≤ 0 := by
  have h1 : Int.tdiv n 7 = -(Int.tdiv (-n) 7) := by
    rw [Int.neg_tdiv]
    omega
  have h2 : 0 ≤ Int.tdiv (-n) 7 := Int.tdiv_nonneg (by omega) (by norm_num)
  omega

/-- C10: `_business_days_between` computes `max(1, floor(days * 5/7))` of the
calendar-day difference, hence is always at least 1 (also for equal or
reversed dates); consequently a first target hit one or two calendar days
after entry always passes the 2-business-day speed check in `check_exits` and
yields the boosted partial-exit fraction. -/
theorem business_days_floor_and_speed_check :
    (∀ d : ℤ, businessDaysBetween d = max 1 ⌊((d : ℚ) * 5) / 7⌋ ∧
      1 ≤ businessDaysBetween d) ∧
    (∀ (vix : Option VixRow) (pos : Position) (c : ℚ) (stage : Stage) (dd : ℤ),
      ¬vixEmergency vix → pos.stop < c → ¬stageAgainst pos stage →
      pos.partialExited = false → pos.firstTarget ≤ c → (dd = 1 ∨ dd = 2) →
      checkExits vix pos c stage dd =
        some (ExitSignal.partialExit
          (min (pos.partialExitPct + SPEED_CHECK_EXTRA_PCT) SPEED_CHECK_MAX_PCT))) := by
  have hfloor : ∀ n : ℤ, ⌊((n : ℚ)) / 7⌋ = n / 7 := by
    intro n
    have h7 : ((7 : ℚ)) = ((7 : ℕ) : ℚ) := by norm_num
    rw [h7, Rat.floor_intCast_div_natCast]
    norm_num
  have hmain : ∀ d : ℤ, businessDaysBetween d = max 1 ⌊((d : ℚ) * 5) / 7⌋ := by
    intro d
    have hcast : ((d : ℚ)) * 5 = ((d * 5 : ℤ) : ℚ) := by push_cast; ring
    rw [hcast, hfloor (d * 5)]
    rcases le_or_lt 0 d with hd | hd
    · have : Int.tdiv (d * 5) 7 = (d * 5) / 7 :=
        Int.tdiv_eq_ediv (by positivity) (by norm_num)
      rw [businessDaysBetween, this]
    · have h1 : Int.tdiv (d * 5) 7 ≤ 0 := tdiv_nonpos_of_neg _ (by nlinarith)
      have h2 : (d * 5) / 7 ≤ 0 := by omega
      rw [businessDaysBetween]
      omega
  refine ⟨fun d => ⟨hmain d, le_max_left 1 _⟩, ?_⟩
  intro vix pos c stage dd hnv hlt hns hpf hft hdd
  have hsp : businessDaysBetween dd ≤ SPEED_CHECK_DAYS := by
    rcases hdd with h | h <;> subst h <;> decide
  have h4 := checkExits_rule4 vix pos c stage dd hnv hlt hns hpf hft
  rw [h4, if_pos hsp]

/-- A concrete position below its first target bound for the speed check. -/
def posFast : Position :=
  { symbol := "SPY", underlying := "SPY", direction := Dir.LONG, tier := 1,
    entryDate := 0, entryPrice := 100, shares := 1, stop := 80, firstTarget := 102,
    trailingPct := 3/100, partialExitPct := 1/4, tradeType := TType.STANDARD,
    partialExited := false, signalDate := -1 }

/-- Witness for C10: the floor formula at a reversed-dates difference of -3,
and the boosted partial exit when the target is hit one calendar day after
entry. -/
theorem business_days_floor_and_speed_check_witness :
    (businessDaysBetween (-3) = max 1 ⌊(((-3 : ℤ) : ℚ) * 5) / 7⌋ ∧
      1 ≤ businessDaysBetween (-3)) ∧
    checkExits none posFast 103 Stage.STAGE_2 1 =
      some (ExitSignal.partialExit
        (min (posFast.partialExitPct + SPEED_CHECK_EXTRA_PCT) SPEED_CHECK_MAX_PCT)) := by
  have hnv : ¬vixEmergency none := by
    rintro ⟨v, hv, _⟩
    exact Option.noConfusion hv
  have hns : ¬stageAgainst posFast Stage.STAGE_2 := by
    rintro (⟨_, h | h⟩ | ⟨hd, _⟩)
    · exact Stage.noConfusion h
    · exact Stage.noConfusion h
    · exact Dir.noConfusion hd
  refine ⟨business_days_floor_and_speed_check.1 (-3), ?_⟩
  exact business_days_floor_and_speed_check.2 none posFast 103 Stage.STAGE_2 1 hnv
    (by norm_num [posFast]) hns rfl (by norm_num [posFast]) (Or.inl rfl)

/-! Claim C2: the 3-day confirmation rule of `compute_stage_history`. -/

/-- C2: in the `compute_stage_history` fold the confirmed stage changes to a
new raw stage only when that stage's consecutive-day run length has reached 3
(and never to TRANSITIONAL); a raw-stage run of length 1 or 2 leaves the
confirmed stage unchanged, and a run of 3 identical non-transitional raw
stages makes the confirmed stage equal that raw stage on the 3rd day. -/
theorem stage_confirmation_rule (s : CState) (raw : Stage) :
    ((confirmStep s raw).2.confirmedStage ≠ s.lastConfirmed →
      STAGE_CONFIRMATION_DAYS ≤ (confirmStep s raw).2.consecutive ∧
      (confirmStep s raw).2.confirmedStage = raw ∧ raw ≠ Stage.TRANSITIONAL) ∧
    ((confirmStep s raw).2.consecutive < STAGE_CONFIRMATION_DAYS →
      (confirmStep s raw).2.confirmedStage = s.lastConfirmed) ∧
    ((confirmStep s raw).2.confirmedStage = Stage.TRANSITIONAL →
      s.lastConfirmed = Stage.TRANSITIONAL) ∧
    (∀ X : Stage, X ≠ Stage.TRANSITIONAL → s.lastRaw ≠ some X →
      (confirmList s [X]).map (fun r => r.confirmedStage) = [s.lastConfirmed] ∧
      (confirmList s [X, X]).map (fun r => r.confirmedStage) =
        [s.lastConfirmed, s.lastConfirmed] ∧
      (confirmList s [X, X, X]).map (fun r => r.confirmedStage) =
        [s.lastConfirmed, s.lastConfirmed, X]) := by
  refine ⟨?_, ?_, ?_, ?_⟩
  · intro hch
    rw [confirmStep] at hch ⊢
    split_ifs at hch ⊢ <;>
      first
        | exact absurd rfl hch
        | exact ⟨by assumption, rfl, by assumption⟩
  · intro hlt
    rw [confirmStep] at hlt ⊢
    split_ifs at hlt ⊢ <;> first | rfl | (dsimp only at hlt; omega)
  · intro htr
    rw [confirmStep] at htr
    split_ifs at htr <;> first | exact htr | simp_all
  · intro X hX hlr
    have hc1 : ¬(s.lastRaw = some X ∧ X ≠ Stage.TRANSITIONAL) := by
      rintro ⟨h, _⟩
      exact hlr h
    by_cases hlc : X = s.lastConfirmed
    · subst hlc
      have e1 : confirmStep s s.lastConfirmed =
          (⟨s.lastConfirmed, 1, some s.lastConfirmed⟩,
           ⟨s.lastConfirmed, true, 1, s.lastConfirmed⟩) := by
        simp [confirmStep, hlr, hX]
      have e2 : confirmStep ⟨s.lastConfirmed, 1, some s.lastConfirmed⟩ s.lastConfirmed =
          (⟨s.lastConfirmed, 2, some s.lastConfirmed⟩,
           ⟨s.lastConfirmed, true, 2, s.lastConfirmed⟩) := by
        simp [confirmStep, hX]
      have e3 : confirmStep ⟨s.lastConfirmed, 2, some s.lastConfirmed⟩ s.lastConfirmed =
          (⟨s.lastConfirmed, 3, some s.lastConfirmed⟩,
           ⟨s.lastConfirmed, true, 3, s.lastConfirmed⟩) := by
        simp [confirmStep, hX]
      simp [confirmList, e1, e2, e3]
    · have e1 : confirmStep s X =
          (⟨s.lastConfirmed, 1, some X⟩, ⟨X, false, 1, s.lastConfirmed⟩) := by
        simp [confirmStep, hlr, hX, hlc, STAGE_CONFIRMATION_DAYS]
      have e2 : confirmStep ⟨s.lastConfirmed, 1, some X⟩ X =
          (⟨s.lastConfirmed, 2, some X⟩, ⟨X, false, 2, s.lastConfirmed⟩) := by
        simp [confirmStep, hX, hlc, STAGE_CONFIRMATION_DAYS]
      have e3 : confirmStep ⟨s.lastConfirmed, 2, some X⟩ X =
          (⟨X, 3, some X⟩, ⟨X, true, 3, X⟩) := by
        simp [confirmStep, hX, hlc, STAGE_CONFIRMATION_DAYS]
      simp [confirmList, e1, e2, e3]

/-- A loop state midway through a confirmed STAGE_1 run, for the C2 witness. -/
def cStateW : CState := ⟨Stage.STAGE_1, 7, some Stage.STAGE_1⟩

/-- Witness for C2: from a confirmed STAGE_1 state, a STAGE_2 run of length 2
leaves the confirmed stage at STAGE_1 and a run of length 3 flips it to
STAGE_2 on the 3rd day. -/
theorem stage_confirmation_rule_witness :
    Stage.STAGE_2 ≠ Stage.TRANSITIONAL ∧ cStateW.lastRaw ≠ some Stage.STAGE_2 ∧
    (confirmList cStateW [Stage.STAGE_2, Stage.STAGE_2]).map (fun r => r.confirmedStage) =
      [Stage.STAGE_1, Stage.STAGE_1] ∧
    (confirmList cStateW [Stage.STAGE_2, Stage.STAGE_2, Stage.STAGE_2]).map
      (fun r => r.confirmedStage) = [Stage.STAGE_1, Stage.STAGE_1, Stage.STAGE_2] := by
  have h := (stage_confirmation_rule cStateW Stage.STAGE_2).2.2.2 Stage.STAGE_2
    (by decide) (by decide)
  exact ⟨by decide, by decide, h.2.1, h.2.2⟩

/-! Claim C3: `determine_stage` date-by-date versus `compute_stage_history`. -/

/-- C3 counterexample: on two consecutive TRANSITIONAL days,
`determine_stage` stores consecutive-day counts 0 then 1 (its
`recent["stage"] == raw_stage` branch has no TRANSITIONAL guard), while
`compute_stage_history` resets the count to 0 on every TRANSITIONAL day, so
the two folds do not yield the same run lengths. -/
theorem stage_folds_counterexample :
    (determineList initD [Stage.TRANSITIONAL, Stage.TRANSITIONAL]).map
      (fun r => r.consecutive) = [0, 1] ∧
    (confirmList initC [Stage.TRANSITIONAL, Stage.TRANSITIONAL]).map
      (fun r => r.consecutive) = [0, 0] ∧
    (determineList initD [Stage.TRANSITIONAL, Stage.TRANSITIONAL]).map
      (fun r => r.consecutive) ≠
      (confirmList initC [Stage.TRANSITIONAL, Stage.TRANSITIONAL]).map
        (fun r => r.consecutive) := by
  refine ⟨by decide, by decide, by decide⟩

/-- Per-record agreement between the two folds: raw stage, confirmed flag and
confirmed stage always agree, and the consecutive-day count agrees on
non-TRANSITIONAL days. -/
def recsAgree (a b : ConfRec) : Prop :=
  a.raw = b.raw ∧ a.confirmed = b.confirmed ∧ a.confirmedStage = b.confirmedStage ∧
  (a.raw ≠ Stage.TRANSITIONAL → a.consecutive = b.consecutive)

/-- The simulation relation between a `determine_stage` table state and a
`compute_stage_history` loop state. -/
def foldRel (sd : DState) (sc : CState) : Prop :=
  sd.lastConf.getD Stage.TRANSITIONAL = sc.lastConfirmed ∧
  ((sd.recent = none ∧ sc.lastRaw = none) ∨
   (∃ r n, sd.recent = some (r, n) ∧ sc.lastRaw = some r ∧
     (r ≠ Stage.TRANSITIONAL → n = sc.consecutive)))

lemma foldRel_step (sd : DState) (sc : CState) (h : foldRel sd sc) (raw : Stage) :
    foldRel (determineStep sd raw).1 (confirmStep sc raw).1 ∧
    recsAgree (determineStep sd raw).2 (confirmStep sc raw).2 := by
  obtain ⟨hlc, hrec⟩ := h
  by_cases htr : raw = Stage.TRANSITIONAL
  · subst htr
    have hC : confirmStep sc Stage.TRANSITIONAL =
        (⟨sc.lastConfirmed, 0, some Stage.TRANSITIONAL⟩,
         ⟨Stage.TRANSITIONAL, false, 0, sc.lastConfirmed⟩) := by
      simp [confirmStep]
    rcases hrec with ⟨hd, hc⟩ | ⟨r, n, hd, hc, _⟩
    · have hD : determineStep sd Stage.TRANSITIONAL =
          (⟨some (Stage.TRANSITIONAL, 0), sd.lastConf⟩,
           ⟨Stage.TRANSITIONAL, false, 0, sc.lastConfirmed⟩) := by
        simp [determineStep, hd, hlc]
      rw [hD, hC]
      exact ⟨⟨hlc, Or.inr ⟨Stage.TRANSITIONAL, 0, rfl, rfl, fun hx => absurd rfl hx⟩⟩,
        rfl, rfl, rfl, fun hx => absurd rfl hx⟩
    · by_cases hr : r = Stage.TRANSITIONAL
      · subst hr
        have hD : determineStep sd Stage.TRANSITIONAL =
            (⟨some (Stage.TRANSITIONAL, n + 1), sd.lastConf⟩,
             ⟨Stage.TRANSITIONAL, false, n + 1, sc.lastConfirmed⟩) := by
          simp [determineStep, hd, hlc]
        rw [hD, hC]
        exact ⟨⟨hlc, Or.inr ⟨Stage.TRANSITIONAL, n + 1, rfl, rfl, fun hx => absurd rfl hx⟩⟩,
          rfl, rfl, rfl, fun hx => absurd rfl hx⟩
      · have hD : determineStep sd Stage.TRANSITIONAL =
            (⟨some (Stage.TRANSITIONAL, 0), sd.lastConf⟩,
             ⟨Stage.TRANSITIONAL, false, 0, sc.lastConfirmed⟩) := by
          simp [determineStep, hd, hr, hlc]
        rw [hD, hC]
        exact ⟨⟨hlc, Or.inr ⟨Stage.TRANSITIONAL, 0, rfl, rfl, fun hx => absurd rfl hx⟩⟩,
          rfl, rfl, rfl, fun hx => absurd rfl hx⟩
  · -- raw is not TRANSITIONAL; both consecutive-day counts take the same value k
    have step_eqs : ∀ k : Nat,
        (match sd.recent with
          | some pr => if pr.1 = raw then pr.2 + 1
              else if raw = Stage.TRANSITIONAL then 0 else 1
          | none => if raw = Stage.TRANSITIONAL then 0 else 1) = k →
        (if sc.lastRaw = some raw ∧ raw ≠ Stage.TRANSITIONAL then sc.consecutive + 1
         else if raw = Stage.TRANSITIONAL then 0 else 1) = k →
        foldRel (determineStep sd raw).1 (confirmStep sc raw).1 ∧
        recsAgree (determineStep sd raw).2 (confirmStep sc raw).2 := by
      intro k hdk hck
      by_cases heq : raw = sc.lastConfirmed
      · have htr' : ¬sc.lastConfirmed = Stage.TRANSITIONAL := heq ▸ htr
        have hD : determineStep sd raw =
            (⟨some (raw, k), some raw⟩, ⟨raw, true, k, sc.lastConfirmed⟩) := by
          simp only [determineStep]
          rw [hdk]
          simp [hlc, htr', heq]
        have hC : confirmStep sc raw =
            (⟨sc.lastConfirmed, k, some raw⟩, ⟨raw, true, k, sc.lastConfirmed⟩) := by
          simp only [confirmStep]
          rw [hck]
          simp [htr', heq]
        rw [hD, hC]
        refine ⟨⟨?_, Or.inr ⟨raw, k, rfl, rfl, fun _ => rfl⟩⟩, rfl, rfl, rfl, fun _ => rfl⟩
        simp [heq]
      · by_cases h3 : STAGE_CONFIRMATION_DAYS ≤ k
        · have hD : determineStep sd raw =
              (⟨some (raw, k), some raw⟩, ⟨raw, true, k, raw⟩) := by
            simp only [determineStep]
            rw [hdk]
            simp [hlc, htr, heq, h3]
          have hC : confirmStep sc raw =
              (⟨raw, k, some raw⟩, ⟨raw, true, k, raw⟩) := by
            simp only [confirmStep]
            rw [hck]
            simp [htr, heq, h3]
          rw [hD, hC]
          exact ⟨⟨by simp, Or.inr ⟨raw, k, rfl, rfl, fun _ => rfl⟩⟩,
            rfl, rfl, rfl, fun _ => rfl⟩
        · have hD : determineStep sd raw =
              (⟨some (raw, k), sd.lastConf⟩, ⟨raw, false, k, sc.lastConfirmed⟩) := by
            simp only [determineStep]
            rw [hdk]
            simp [hlc, htr, heq, h3]
          have hC : confirmStep sc raw =
              (⟨sc.lastConfirmed, k, some raw⟩, ⟨raw, false, k, sc.lastConfirmed⟩) := by
            simp only [confirmStep]
            rw [hck]
            simp [htr, heq, h3]
          rw [hD, hC]
          exact ⟨⟨hlc, Or.inr ⟨raw, k, rfl, rfl, fun _ => rfl⟩⟩,
            rfl, rfl, rfl, fun _ => rfl⟩
    rcases hrec with ⟨hd, hc⟩ | ⟨r, n, hd, hc, hn⟩
    · refine step_eqs 1 ?_ ?_
      · rw [hd]
        simp [htr]
      · rw [hc]
        simp [htr]
    · by_cases hrr : r = raw
      · subst hrr
        refine step_eqs (sc.consecutive + 1) ?_ ?_
        · rw [hd]
          simp [hn htr]
        · rw [hc]
          simp [htr]
      · refine step_eqs 1 ?_ ?_
        · rw [hd]
          simp [hrr, htr]
        · rw [hc]
          simp [hrr, htr]

lemma foldRel_list (raws : List Stage) :
    ∀ (sd : DState) (sc : CState), foldRel sd sc →
      List.Forall₂ recsAgree (determineList sd raws) (confirmList sc raws) := by
  induction raws with
  | nil => intro sd sc _; exact List.Forall₂.nil
  | cons r rs ih =>
    intro sd sc h
    have hs := foldRel_step sd sc h r
    exact List.Forall₂.cons hs.2 (ih _ _ hs.1)

/-- C3 (amended): calling `determine_stage` date-by-date in ascending order
yields, for each date, the same raw stage, confirmed flag and confirmed stage
as the `compute_stage_history` fold, and the same consecutive-day run length
on every non-TRANSITIONAL day; the two disagree on the run length of
TRANSITIONAL runs, which `compute_stage_history` pins to 0 while
`determine_stage` increments it from the second TRANSITIONAL day on. -/
theorem stage_folds_agree_amended (raws : List Stage) :
    List.Forall₂ recsAgree (determineList initD raws) (confirmList initC raws) := by
  refine foldRel_list raws initD initC ⟨rfl, Or.inl ⟨rfl, rfl⟩⟩

/-- Witness for C3's amended theorem on a concrete three-day history. -/
theorem stage_folds_agree_amended_witness :
    List.Forall₂ recsAgree
      (determineList initD [Stage.STAGE_2, Stage.TRANSITIONAL, Stage.STAGE_2])
      (confirmList initC [Stage.STAGE_2, Stage.TRANSITIONAL, Stage.STAGE_2]) :=
  stage_folds_agree_amended [Stage.STAGE_2, Stage.TRANSITIONAL, Stage.STAGE_2]

/-! Helper lemmas about the backtest building blocks. -/

lemma fillPrice_pos (env : Env) (sym : String) (d : ℤ) (p : ℚ)
    (h : fillPrice env sym d = some p) : 0 < p := by
  simp only [fillPrice] at h
  rcases hep : (match env.openPx sym d with
    | some o => if o ≤ 0 then env.closePx sym d else some o
    | none => env.closePx sym d) with _ | q
  · rw [hep] at h
    exact Option.noConfusion h
  · rw [hep] at h
    dsimp only at h
    by_cases hq : 0 < q
    · rw [if_pos hq] at h
      injection h with h'
      exact h' ▸ hq
    · rw [if_neg hq] at h
      exact Option.noConfusion h

lemma initialStop_lt (ep : ℚ) (dir : Dir) (stage : Stage) (atr : Option ℚ)
    (hep : 0 < ep) : (calcTradeParams ep dir stage atr).initialStop < ep := by
  have hfix : ∀ pct : ℚ, 0 < pct → ep * (1 - pct) < ep := by
    intro pct hp
    nlinarith
  have hatr : ∀ (fixedPct : ℚ) (inv : Bool), 0 < fixedPct →
      atrStop ep atr fixedPct inv < ep := by
    intro fixedPct inv hfp
    rcases atr with _ | a
    · simpa [atrStop] using hfix fixedPct hfp
    · simp only [atrStop]
      split_ifs with h1 h2
      · rw [sub_lt_self_iff]
        refine lt_of_lt_of_le ?_ (le_max_left _ _)
        rw [ATR_MIN_STOP_PCT]
        positivity
      · rw [sub_lt_self_iff]
        refine lt_of_lt_of_le ?_ (le_max_left _ _)
        rw [ATR_MIN_STOP_PCT]
        positivity
      · exact hfix fixedPct hfp
  rw [calcTradeParams]
  split_ifs with h1 h2
  · exact hatr MAX_STOP_PCT_INVERSE true (by norm_num [MAX_STOP_PCT_INVERSE])
  · exact hatr MAX_STOP_PCT false (by norm_num [MAX_STOP_PCT])
  · exact hatr MAX_STOP_PCT false (by norm_num [MAX_STOP_PCT])

lemma checkExits_updateStop (vix : Option VixRow) (pos : Position) (c : ℚ)
    (stage : Stage) (dd : ℤ) (ns : ℚ)
    (h : checkExits vix pos c stage dd = some (ExitSignal.updateStop ns)) :
    pos.stop < ns ∧ pos.partialExited = true := by
  rw [checkExits.eq_def] at h
  split_ifs at h <;> simp_all
  exact h.2 ▸ h.1

lemma checkExits_partialExit (vix : Option VixRow) (pos : Position) (c : ℚ)
    (stage : Stage) (dd : ℤ) (pct : ℚ)
    (h : checkExits vix pos c stage dd = some (ExitSignal.partialExit pct)) :
    pos.partialExited = false := by
  rw [checkExits.eq_def] at h
  split_ifs at h <;> simp_all

/-! Per-phase behaviour of the date-loop step. -/

lemma preStep_position (env : Env) (st : BTState) (d : ℤ) :
    (preStep env st d).position = st.position := rfl

lemma preStep_pending (env : Env) (st : BTState) (d : ℤ) :
    (preStep env st d).pending = st.pending := rfl

lemma preStep_trades (env : Env) (st : BTState) (d : ℤ) :
    (preStep env st d).trades = st.trades := rfl

lemma logStep_position (env : Env) (st : BTState) (d : ℤ) :
    (logStep env st d).position = st.position := rfl

lemma logStep_pending (env : Env) (st : BTState) (d : ℤ) :
    (logStep env st d).pending = st.pending := rfl

lemma logStep_trades (env : Env) (st : BTState) (d : ℤ) :
    (logStep env st d).trades = st.trades := rfl

lemma fillStep_pending (env : Env) (st : BTState) (d : ℤ) :
    (fillStep env st d).pending = none ∨
    (st.pending = none ∧ fillStep env st d = st) := by
  rw [fillStep.eq_def]
  rcases hp : st.pending with _ | p
  · exact Or.inr ⟨rfl, rfl⟩
  · dsimp only
    split_ifs with h
    · exact Or.inl rfl
    · rcases hfp : fillPrice env p.asset d with _ | ep
      · exact Or.inl rfl
      · exact Or.inl rfl

lemma fillStep_spec (env : Env) (st : BTState) (d : ℤ) :
    (fillStep env st d).trades = st.trades ∧
    ((fillStep env st d).position = st.position ∨
      (∃ p ep, st.pending = some p ∧ fillPrice env p.asset d = some ep ∧
        (fillStep env st d).position = some
          { symbol := p.asset
            underlying := p.underlying
            direction := p.direction
            tier := p.tier
            entryDate := d
            entryPrice := ep
            shares := st.cash / ep
            stop := (calcTradeParams ep p.direction p.stage
              (env.atrOf p.underlying d)).initialStop
            firstTarget := (calcTradeParams ep p.direction p.stage
              (env.atrOf p.underlying d)).firstTarget
            trailingPct := (calcTradeParams ep p.direction p.stage
              (env.atrOf p.underlying d)).trailingPct
            partialExitPct := (calcTradeParams ep p.direction p.stage
              (env.atrOf p.underlying d)).partialExitPct
            tradeType := (calcTradeParams ep p.direction p.stage
              (env.atrOf p.underlying d)).tradeType
            partialExited := false
            signalDate := p.signalDate })) := by
  rw [fillStep.eq_def]
  rcases hp : st.pending with _ | p
  · exact ⟨rfl, Or.inl rfl⟩
  · dsimp only
    split_ifs with h
    · exact ⟨rfl, Or.inl rfl⟩
    · rcases hfp : fillPrice env p.asset d with _ | ep
      · exact ⟨rfl, Or.inl rfl⟩
      · exact ⟨rfl, Or.inr ⟨p, ep, rfl, hfp, rfl⟩⟩

lemma signalStep_cases (env : Env) (st : BTState) (d : ℤ) :
    signalStep env st d = st ∨
    (st.position = none ∧ st.pending = none ∧
      ∃ pd : Pending, pd.signalDate = d ∧
        signalStep env st d = { st with pending := some pd }) := by
  by_cases h1 : st.position = none ∧ st.pending = none ∧ st.vixCooldown = false ∧
      st.cooldownDays = 0
  · by_cases h2 : (env.rotationOf d).direction ≠ Dir.HOLD ∧
        (env.rotationOf d).strength ≠ Strength.NO_ENTRY
    · right
      refine ⟨h1.1, h1.2.1,
        ⟨{ asset := (env.rotationOf d).asset
           underlying := if (env.rotationOf d).direction = Dir.LONG then
             (env.rotationOf d).asset else "SPY"
           direction := (env.rotationOf d).direction
           tier := (env.rotationOf d).tier
           strength := (env.rotationOf d).strength
           stage := env.stageOf (if (env.rotationOf d).direction = Dir.LONG then
             (env.rotationOf d).asset else "SPY") d
           signalDate := d }, rfl, ?_⟩⟩
      simp only [signalStep, if_pos h1, if_pos h2]
    · left
      simp only [signalStep, if_pos h1, if_neg h2]
  · left
    simp only [signalStep, if_neg h1]

lemma exitStep_spec (env : Env) (st : BTState) (d : ℤ) :
    (exitStep env st d).pending = st.pending ∧
    (∀ pos', (exitStep env st d).position = some pos' →
      ∃ pos, st.position = some pos ∧
        pos'.symbol = pos.symbol ∧ pos'.underlying = pos.underlying ∧
        pos'.entryDate = pos.entryDate ∧ pos'.entryPrice = pos.entryPrice ∧
        pos'.signalDate = pos.signalDate ∧
        (pos' = pos ∨
         (pos.partialExited = false ∧ pos'.stop = pos.entryPrice ∧
           pos'.partialExited = true) ∨
         (pos.partialExited = true ∧ pos.stop < pos'.stop ∧
           pos'.partialExited = true))) ∧
    (∀ t ∈ (exitStep env st d).trades, t ∈ st.trades ∨
      ∃ pos, st.position = some pos ∧ t.symbol = pos.symbol ∧
        t.entryDate = pos.entryDate ∧ t.entryPrice = pos.entryPrice ∧
        t.signalDate = pos.signalDate) := by
  rw [exitStep.eq_def]
  rcases hpos : st.position with _ | pos
  · refine ⟨rfl, ?_, fun t ht => Or.inl ht⟩
    intro pos' h
    have h2 : st.position = some pos' := h
    rw [hpos] at h2
    exact Option.noConfusion h2
  · dsimp only
    split_ifs with hday
    · refine ⟨rfl, ?_, fun t ht => Or.inl ht⟩
      intro pos' h
      rw [hpos] at h
      injection h with h'
      exact ⟨pos, rfl, by rw [h'], by rw [h'], by rw [h'], by rw [h'], by rw [h'],
        Or.inl (by rw [h'])⟩
    · rcases hcl : env.closePx pos.symbol d with _ | c
      · refine ⟨rfl, ?_, fun t ht => Or.inl ht⟩
        intro pos' h
        rw [hpos] at h
        injection h with h'
        exact ⟨pos, rfl, by rw [h'], by rw [h'], by rw [h'], by rw [h'], by rw [h'],
          Or.inl (by rw [h'])⟩
      · dsimp only
        rcases hex : checkExits (env.vixAt d) pos c (env.stageOf pos.underlying d)
            (d - pos.entryDate) with _ | sig
        · refine ⟨rfl, ?_, fun t ht => Or.inl ht⟩
          intro pos' h
          rw [hpos] at h
          injection h with h'
          exact ⟨pos, rfl, by rw [h'], by rw [h'], by rw [h'], by rw [h'], by rw [h'],
            Or.inl (by rw [h'])⟩
        · rcases sig with reason | pct | ns
          · -- full exit: position cleared, one trade appended from pos
            refine ⟨rfl, ?_, ?_⟩
            · intro pos' h
              exact Option.noConfusion h
            · dsimp only
              intro t ht
              rw [List.mem_append] at ht
              rcases ht with ht | ht
              · exact Or.inl ht
              · rw [List.mem_singleton] at ht
                exact Or.inr ⟨pos, rfl, by rw [ht], by rw [ht], by rw [ht], by rw [ht]⟩
          · -- partial exit: stop moved to breakeven
            refine ⟨rfl, ?_, fun t ht => Or.inl ht⟩
            intro pos' h
            injection h with h'
            refine ⟨pos, rfl, ?_, ?_, ?_, ?_, ?_, ?_⟩
            · rw [← h']
            · rw [← h']
            · rw [← h']
            · rw [← h']
            · rw [← h']
            · rw [← h']
              exact Or.inr (Or.inl
                ⟨checkExits_partialExit _ _ _ _ _ _ hex, rfl, rfl⟩)
          · -- trailing-stop update: strictly raised stop
            refine ⟨rfl, ?_, fun t ht => Or.inl ht⟩
            intro pos' h
            have hup := checkExits_updateStop _ _ _ _ _ _ hex
            injection h with h'
            refine ⟨pos, rfl, ?_, ?_, ?_, ?_, ?_, ?_⟩
            · rw [← h']
            · rw [← h']
            · rw [← h']
            · rw [← h']
            · rw [← h']
            · rw [← h']
              exact Or.inr (Or.inr ⟨hup.2, hup.1, hup.2⟩)

/-! Claim C1: signal-at-close, execute-at-next-open (no lookahead). -/

/-- `a` and `b` are adjacent entries of `dates`, in this order: `b` is the
next trading date after `a`. -/
def adjPair (dates : List ℤ) (a b : ℤ) : Prop :=
  ∃ l1 l2, dates = l1 ++ a :: b :: l2

lemma chain_adjPair (dates : List ℤ) (a b : ℤ)
    (hch : List.Chain' (· < ·) dates) (h : adjPair dates a b) : a < b := by
  obtain ⟨l1, l2, rfl⟩ := h
  exact (List.chain'_append_cons_cons.mp hch).2.1

/-- A position was signalled strictly before its entry date, which is the very
next trading date, and was filled at that date's open-or-close price. -/
def posLinked (env : Env) (dates : List ℤ) (pos : Position) : Prop :=
  pos.signalDate < pos.entryDate ∧ adjPair dates pos.signalDate pos.entryDate ∧
  fillPrice env pos.symbol pos.entryDate = some pos.entryPrice

/-- The same no-lookahead link for a recorded trade. -/
def tradeLinked (env : Env) (dates : List ℤ) (t : Trade) : Prop :=
  t.signalDate < t.entryDate ∧ adjPair dates t.signalDate t.entryDate ∧
  fillPrice env t.symbol t.entryDate = some t.entryPrice

/-- Loop invariant: any pending entry was signalled on the last processed
date, and every position/trade satisfies the no-lookahead link. -/
def c1Inv (env : Env) (dates done : List ℤ) (st : BTState) : Prop :=
  (∀ p : Pending, st.pending = some p → ∃ l1, done = l1 ++ [p.signalDate]) ∧
  (∀ pos, st.position = some pos → posLinked env dates pos) ∧
  (∀ t ∈ st.trades, tradeLinked env dates t)

lemma c1_step (env : Env) (dates done rest : List ℤ) (d : ℤ) (st : BTState)
    (hdates : dates = done ++ d :: rest) (hch : List.Chain' (· < ·) dates)
    (hinv : c1Inv env dates done st) :
    c1Inv env dates (done ++ [d]) (stepDay env st d) := by
  obtain ⟨hpend, hpos, htrs⟩ := hinv
  set st1 := preStep env st d with hst1
  have h1pend : st1.pending = st.pending := rfl
  have h1pos : st1.position = st.position := rfl
  have h1tr : st1.trades = st.trades := rfl
  set st2 := fillStep env st1 d with hst2
  obtain ⟨h2tr, h2posCase⟩ := fillStep_spec env st1 d
  have h2pos : ∀ pos', st2.position = some pos' → posLinked env dates pos' := by
    rcases h2posCase with heq | ⟨p, ep, hp, hfp, hpos'⟩
    · intro pos' h'
      rw [hst2, heq, h1pos] at h'
      exact hpos pos' h'
    · intro pos' h'
      rw [hst2, hpos'] at h'
      injection h' with h''
      obtain ⟨l1, hdone⟩ := hpend p (by rw [← h1pend]; exact hp)
      have hadj : adjPair dates p.signalDate d :=
        ⟨l1, rest, by rw [hdates, hdone]; simp⟩
      rw [← h'']
      exact ⟨chain_adjPair dates _ _ hch hadj, hadj, hfp⟩
  have h2trs : ∀ t ∈ st2.trades, tradeLinked env dates t := by
    rw [hst2, h2tr, h1tr]
    exact htrs
  set st3 := exitStep env st2 d with hst3
  obtain ⟨h3pend, h3pos, h3tr⟩ := exitStep_spec env st2 d
  have h3posL : ∀ pos', st3.position = some pos' → posLinked env dates pos' := by
    intro pos' h'
    obtain ⟨pos, hpos2, hsym, hund, hed, hepr, hsd, _⟩ := h3pos pos' (by rw [← hst3]; exact h')
    have hL := h2pos pos hpos2
    unfold posLinked at hL ⊢
    rw [hsym, hed, hepr, hsd]
    exact hL
  have h3trL : ∀ t ∈ st3.trades, tradeLinked env dates t := by
    intro t ht
    rcases h3tr t (by rw [hst3] at ht; exact ht) with hmem | ⟨pos, hpos2, e1, e2, e3, e4⟩
    · exact h2trs t hmem
    · have hL := h2pos pos hpos2
      unfold tradeLinked
      unfold posLinked at hL
      rw [e1, e2, e3, e4]
      exact hL
  refine ⟨?_, ?_, ?_⟩
  · -- pending after the full step: created today in STEP 3, if at all
    intro p hp
    rcases signalStep_cases env st3 d with heq | ⟨hpn, hdn, pd, hsdd, hres⟩
    · rw [stepDay, logStep_pending, ← hst1, ← hst2, ← hst3] at hp
      rw [heq] at hp
      rw [hst3, h3pend] at hp
      rcases fillStep_pending env st1 d with h2none | ⟨hpn1, hfe⟩
      · rw [hst2, h2none] at hp
        exact Option.noConfusion hp
      · rw [hst2, hfe, hpn1] at hp
        exact Option.noConfusion hp
    · rw [stepDay, logStep_pending, ← hst1, ← hst2, ← hst3] at hp
      rw [hres] at hp
      simp only at hp
      injection hp with hp'
      exact ⟨done, by rw [← hp', hsdd]⟩
  · -- positions after the full step
    intro pos h'
    rcases signalStep_cases env st3 d with heq | ⟨hpn, hdn, pd, hsdd, hres⟩
    · rw [stepDay, logStep_position, ← hst1, ← hst2, ← hst3, heq] at h'
      exact h3posL pos h'
    · rw [stepDay, logStep_position, ← hst1, ← hst2, ← hst3, hres] at h'
      simp only at h'
      exact h3posL pos h'
  · -- trades after the full step
    intro t ht
    rcases signalStep_cases env st3 d with heq | ⟨hpn, hdn, pd, hsdd, hres⟩
    · rw [stepDay, logStep_trades, ← hst1, ← hst2, ← hst3, heq] at ht
      exact h3trL t ht
    · rw [stepDay, logStep_trades, ← hst1, ← hst2, ← hst3, hres] at ht
      simp only at ht
      exact h3trL t ht

lemma c1_fold (env : Env) (dates : List ℤ) (hch : List.Chain' (· < ·) dates) :
    ∀ (rest done : List ℤ) (st : BTState), dates = done ++ rest →
      c1Inv env dates done st →
      c1Inv env dates dates (List.foldl (stepDay env) st rest) := by
  intro rest
  induction rest with
  | nil =>
    intro done st h hinv
    rw [List.foldl_nil]
    rw [List.append_nil] at h
    rw [← h] at hinv
    exact hinv
  | cons d ds ih =>
    intro done st h hinv
    rw [List.foldl_cons]
    exact ih (done ++ [d]) _ (by rw [h]; simp)
      (c1_step env dates done ds d st h hch hinv)

/-- C1: in every backtest over strictly increasing trading dates, every
recorded trade and any still-open position was signalled strictly before its
entry date, entered on the very next trading date, and filled at `fillPrice`
(that date's open, falling back to its close) — never at the signal date's own
open or close. -/
theorem backtest_entry_next_day (env : Env) (cap : ℚ) (dates : List ℤ)
    (hch : List.Chain' (· < ·) dates) :
    (∀ t ∈ (runBacktest env cap dates).trades, tradeLinked env dates t) ∧
    (∀ pos, (runBacktest env cap dates).position = some pos →
      posLinked env dates pos) := by
  have hinit : c1Inv env dates [] (initState cap) := by
    refine ⟨?_, ?_, ?_⟩
    · intro p h
      exact Option.noConfusion h
    · intro pos h
      exact Option.noConfusion h
    · intro t ht
      exact absurd ht (List.not_mem_nil t)
  have hfold := c1_fold env dates hch dates [] (initState cap) (by simp) hinit
  obtain ⟨hpend, hpos, htrs⟩ := hfold
  rw [runBacktest.eq_def]
  dsimp only
  rcases hlast : dates.getLast? with _ | dl
  · exact ⟨htrs, hpos⟩
  · rcases hfin : (List.foldl (stepDay env) (initState cap) dates).position with _ | pos
    · exact ⟨htrs, hpos⟩
    · dsimp only
      split_ifs with hsh
      · rcases hcl : env.closePx pos.symbol dl with _ | fc
        · exact ⟨htrs, hpos⟩
        · dsimp only
          split_ifs with hfc
          · exact ⟨htrs, hpos⟩
          · constructor
            · intro t ht
              simp only [List.mem_append, List.mem_singleton] at ht
              rcases ht with ht | ht
              · exact htrs t ht
              · have hL := hpos pos hfin
                unfold tradeLinked
                unfold posLinked at hL
                rw [ht]
                exact hL
            · intro pos' h'
              injection h' with h''
              rw [← h'']
              exact hpos pos hfin
      · exact ⟨htrs, hpos⟩

/-- A concrete three-day store: a STRONG long signal on SPY at date 0, an
open of 100 on date 1, closes of 100 throughout, no VIX or ATR data. -/
def envW : Env :=
  { openPx := fun s d => if s = "SPY" ∧ d = 1 then some 100 else none
    closePx := fun s _ => if s = "SPY" then some 100 else none
    vixAt := fun _ => none
    rotationOf := fun d =>
      if d = 0 then ⟨"SPY", Dir.LONG, 1, Strength.STRONG_ENTRY⟩
      else ⟨"BIL", Dir.HOLD, 4, Strength.NO_ENTRY⟩
    stageOf := fun _ _ => Stage.STAGE_2
    atrOf := fun _ _ => none }

/-- The trade that backtest `envW 100 [0, 1, 2]` records (closed at the end
of the range): signalled at date 0, entered at date 1's open. -/
def tradeW : Trade :=
  { tradeNum := 1, symbol := "SPY", direction := Dir.LONG, tier := 1,
    entryDate := 1, entryPrice := 100, exitDate := 2, exitPrice := 100,
    exitReason := ExitReason.BACKTEST_END, pnlPct := 0, holdingDays := 1,
    signalDate := 0 }

/-- Witness for C1 on the concrete store `envW`. -/
theorem backtest_entry_next_day_witness :
    List.Chain' (· < ·) ([0, 1, 2] : List ℤ) ∧
    tradeW ∈ (runBacktest envW 100 [0, 1, 2]).trades ∧
    tradeLinked envW [0, 1, 2] tradeW :=
  ⟨by norm_num [List.chain'_cons, List.chain'_singleton], by with_unfolding_all decide,
   (backtest_entry_next_day envW 100 [0, 1, 2]
      (by norm_num [List.chain'_cons, List.chain'_singleton])).1 tradeW
     (by with_unfolding_all decide)⟩

/-! Claim C7: a held position's stop never decreases during the backtest. -/

/-- Between two consecutive loop states, a position held in both has a stop
that did not decrease (and is the same position, by entry date). -/
def stopMono (a b : BTState) : Prop :=
  ∀ pos pos', a.position = some pos → b.position = some pos' →
    pos.stop ≤ pos'.stop ∧ pos'.entryDate = pos.entryDate

/-- Backtest state invariant: before its partial exit a position's stop is
strictly below its entry price (it still carries the initial stop or the
breakeven has not happened yet), and a pending entry excludes an open
position. -/
def c7Inv (st : BTState) : Prop :=
  (∀ pos, st.position = some pos → pos.partialExited = false →
    pos.stop < pos.entryPrice) ∧
  (∀ p : Pending, st.pending = some p → st.position = none)

lemma fillStep_of_pending_none (env : Env) (st : BTState) (d : ℤ)
    (h : st.pending = none) : fillStep env st d = st := by
  rw [fillStep.eq_def, h]

lemma c7_step (env : Env) (st : BTState) (d : ℤ) (h : c7Inv st) :
    c7Inv (stepDay env st d) ∧ stopMono st (stepDay env st d) := by
  obtain ⟨hstop, hnoco⟩ := h
  set st1 := preStep env st d with hst1
  have h1inv : c7Inv st1 := ⟨hstop, hnoco⟩
  set st2 := fillStep env st1 d with hst2
  obtain ⟨h2tr, h2posCase⟩ := fillStep_spec env st1 d
  have h2stop : ∀ pos, st2.position = some pos → pos.partialExited = false →
      pos.stop < pos.entryPrice := by
    rcases h2posCase with heq | ⟨p, ep, hp, hfp, hpos'⟩
    · intro pos h' hpf
      rw [hst2, heq] at h'
      exact hstop pos h' hpf
    · intro pos h' _
      rw [hst2, hpos'] at h'
      injection h' with h''
      rw [← h'']
      exact initialStop_lt ep p.direction p.stage (env.atrOf p.underlying d)
        (fillPrice_pos env p.asset d ep hfp)
  have h2pend : st2.pending = none := by
    rcases fillStep_pending env st1 d with h2none | ⟨hpn1, hfe⟩
    · rw [hst2]
      exact h2none
    · rw [hst2, hfe]
      exact hpn1
  have h2mono : ∀ pos pos', st.position = some pos → st2.position = some pos' →
      pos.stop ≤ pos'.stop ∧ pos'.entryDate = pos.entryDate := by
    intro pos pos' hp hp'
    have hpn : st1.pending = none := by
      rcases hpe : st.pending with _ | q
      · exact hpe
      · rw [hnoco q hpe] at hp
        exact Option.noConfusion hp
    rw [hst2, fillStep_of_pending_none env st1 d hpn] at hp'
    have hpx : st.position = some pos' := hp'
    rw [hp] at hpx
    injection hpx with h''
    rw [← h'']
    exact ⟨le_refl _, rfl⟩
  set st3 := exitStep env st2 d with hst3
  obtain ⟨h3pend, h3pos, _⟩ := exitStep_spec env st2 d
  have h3stop : ∀ pos, st3.position = some pos → pos.partialExited = false →
      pos.stop < pos.entryPrice := by
    intro pos' h' hpf
    obtain ⟨pos, hp2, _, _, hed, hepr, _, hcase⟩ := h3pos pos' (by rw [← hst3]; exact h')
    rcases hcase with hsame | ⟨_, _, hpe⟩ | ⟨_, _, hpe⟩
    · rw [hsame]
      exact h2stop pos hp2 (by rw [← hsame]; exact hpf)
    · rw [hpe] at hpf
      exact Bool.noConfusion hpf
    · rw [hpe] at hpf
      exact Bool.noConfusion hpf
  have h3mono : ∀ pos pos', st2.position = some pos → st3.position = some pos' →
      pos.stop ≤ pos'.stop ∧ pos'.entryDate = pos.entryDate := by
    intro pos pos' hp hp'
    obtain ⟨pos0, hp2, _, _, hed, _, _, hcase⟩ := h3pos pos' (by rw [← hst3]; exact hp')
    have h0 : pos = pos0 := Option.some.inj (hp.symm.trans hp2)
    rw [h0]
    rcases hcase with hsame | ⟨hpf, hbe, _⟩ | ⟨_, hlt, _⟩
    · rw [hsame]
      exact ⟨le_refl _, rfl⟩
    · exact ⟨by rw [hbe]; exact le_of_lt (h2stop pos0 hp2 hpf), hed⟩
    · exact ⟨le_of_lt hlt, hed⟩
  have h3pend' : st3.pending = none := by
    rw [hst3, h3pend]
    exact h2pend
  rcases signalStep_cases env st3 d with heq | ⟨hpn, hdn, pd, hsdd, hres⟩
  · constructor
    · constructor
      · intro pos h' hpf
        rw [stepDay, logStep_position, ← hst1, ← hst2, ← hst3, heq] at h'
        exact h3stop pos h' hpf
      · intro p hp
        rw [stepDay, logStep_pending, ← hst1, ← hst2, ← hst3, heq, h3pend'] at hp
        exact Option.noConfusion hp
    · intro pos pos' hp hp'
      rw [stepDay, logStep_position, ← hst1, ← hst2, ← hst3, heq] at hp'
      rcases hmid : st2.position with _ | posm
      · obtain ⟨posx, hx, _⟩ := h3pos pos' (by rw [← hst3]; exact hp')
        rw [hmid] at hx
        exact Option.noConfusion hx
      · have hm1 := h2mono pos posm hp hmid
        have hm2 := h3mono posm pos' hmid hp'
        exact ⟨le_trans hm1.1 hm2.1, by rw [hm2.2, hm1.2]⟩
  · constructor
    · constructor
      · intro pos h' hpf
        rw [stepDay, logStep_position, ← hst1, ← hst2, ← hst3, hres] at h'
        simp only at h'
        exact h3stop pos h' hpf
      · intro p hp
        rw [stepDay, logStep_position, ← hst1, ← hst2, ← hst3, hres]
        simp only
        exact hpn
    · intro pos pos' hp hp'
      rw [stepDay, logStep_position, ← hst1, ← hst2, ← hst3, hres] at hp'
      simp only at hp'
      rw [hpn] at hp'
      exact Option.noConfusion hp'

lemma c7_chain (env : Env) (st : BTState) (dates : List ℤ) (h : c7Inv st) :
    List.Chain' stopMono (st :: btScan env st dates) := by
  induction dates generalizing st with
  | nil => simp [btScan]
  | cons d ds ih =>
    rw [btScan]
    obtain ⟨hinv', hmono⟩ := c7_step env st d h
    exact List.chain'_cons.mpr ⟨hmono, ih _ hinv'⟩

/-- C7: along consecutive states of the backtest date loop a held position's
stop price never decreases; moreover `check_exits` issues a trailing-stop
update only when the new stop is strictly above the current one, and the
initial stop from `calc_trade_params` is always strictly below a positive
entry price (so the breakeven move at the partial exit raises the stop). -/
theorem backtest_stop_never_decreases (env : Env) (cap : ℚ) (dates : List ℤ) :
    List.Chain' stopMono (initState cap :: btScan env (initState cap) dates) ∧
    (∀ (vix : Option VixRow) (pos : Position) (c : ℚ) (stage : Stage) (dd : ℤ) (ns : ℚ),
      checkExits vix pos c stage dd = some (ExitSignal.updateStop ns) →
      pos.stop < ns) ∧
    (∀ (ep : ℚ) (dir : Dir) (stage : Stage) (atr : Option ℚ), 0 < ep →
      (calcTradeParams ep dir stage atr).initialStop < ep) := by
  refine ⟨c7_chain env (initState cap) dates ⟨?_, ?_⟩, ?_, ?_⟩
  · intro pos h
    exact Option.noConfusion h
  · intro p h
    exact Option.noConfusion h
  · intro vix pos c stage dd ns h
    exact (checkExits_updateStop vix pos c stage dd ns h).1
  · intro ep dir stage atr hep
    exact initialStop_lt ep dir stage atr hep

/-- A position after its partial exit, for the C7 witness. -/
def posTrail : Position :=
  { symbol := "SPY", underlying := "SPY", direction := Dir.LONG, tier := 1,
    entryDate := 0, entryPrice := 100, shares := 1, stop := 95, firstTarget := 102,
    trailingPct := 3/100, partialExitPct := 1/4, tradeType := TType.STANDARD,
    partialExited := true, signalDate := -1 }

/-- Witness for C7: a concrete trailing-stop update is strictly raising, and
a concrete initial stop is strictly below the entry price. -/
theorem backtest_stop_never_decreases_witness :
    checkExits none posTrail 100 Stage.STAGE_2 5 =
      some (ExitSignal.updateStop (100 * (1 - posTrail.trailingPct))) ∧
    posTrail.stop < 100 * (1 - posTrail.trailingPct) ∧
    (0 : ℚ) < 100 ∧
    (calcTradeParams 100 Dir.LONG Stage.STAGE_2 none).initialStop < 100 := by
  have hce : checkExits none posTrail 100 Stage.STAGE_2 5 =
      some (ExitSignal.updateStop (100 * (1 - posTrail.trailingPct))) := by
    with_unfolding_all decide
  refine ⟨hce, ?_, by norm_num, ?_⟩
  · exact (backtest_stop_never_decreases envW 100 []).2.1 none posTrail 100
      Stage.STAGE_2 5 _ hce
  · exact (backtest_stop_never_decreases envW 100 []).2.2 100 Dir.LONG
      Stage.STAGE_2 none (by norm_num)

/-! Claim C8: daily equity recording when the position's close is missing. -/

/-- A three-day store like `envW`, except the traded symbol has no close on
date 2 while a position is held. -/
def env8 : Env :=
  { openPx := fun s d => if s = "SPY" ∧ d = 1 then some 100 else none
    closePx := fun s d => if s = "SPY" ∧ d ≠ 2 then some 100 else none
    vixAt := fun _ => none
    rotationOf := fun d =>
      if d = 0 then ⟨"SPY", Dir.LONG, 1, Strength.STRONG_ENTRY⟩
      else ⟨"BIL", Dir.HOLD, 4, Strength.NO_ENTRY⟩
    stageOf := fun _ _ => Stage.STAGE_2
    atrOf := fun _ _ => none }

/-- C8 (code bug): the equity curve and daily log do get exactly one entry
per trading date, and on a positioned day with a close the equity is cash
plus mark-to-close; but on a positioned day whose close is missing the code
records bare cash (here 0, the whole position value is dropped) instead of
carrying forward the last known equity (here 100), while the position still
holds its shares. -/
theorem backtest_missing_close_drops_equity :
    (runBacktest env8 100 [0, 1, 2]).equityCurve = [(0, 100), (1, 100), (2, 0)] ∧
    (runBacktest env8 100 [0, 1, 2]).dailyLog.map (fun r => r.equity) =
      [100, 100, 0] ∧
    (runBacktest env8 100 [0, 1, 2]).position.map (fun p => p.shares) = some 1 := by
  refine ⟨?_, ?_, ?_⟩ <;> with_unfolding_all decide

end AssetRevesting
